import Mathlib

/-!
Verification of the lab-report-intelligence-agent core pipeline
(`parser.py`, `normal_ranges.py`, `analyzer.py`) against its specification.

Numbers are modelled as rationals.  Python's `round` builtin (banker's
rounding to the nearest integer, resp. to one decimal place) is modelled by
`pyRound` / `pyRound1`.  Strings are modelled as Lean `String`s and all the
text processing from `parser.py` (noise filtering, the two extraction
regexes, name cleanup, deduplication) is embedded as executable functions
over `List Char`.  The explanation strings built by `analyzer._explain` are
pure presentation (float formatting) and are not modelled; no claim
mentions them.
-/

set_option maxRecDepth 100000

namespace LabReport

/-- Python's builtin `round(x)`: round half to even, as an integer. -/
def pyRound (x : ℚ) : ℤ :=
  if x - (⌊x⌋ : ℚ) < 1/2 then ⌊x⌋
  else if 1/2 < x - (⌊x⌋ : ℚ) then ⌊x⌋ + 1
  else if ⌊x⌋ % 2 = 0 then ⌊x⌋ else ⌊x⌋ + 1

/-- Python's `round(x, 1)`: round half to even at one decimal place. -/
def pyRound1 (x : ℚ) : ℚ := (pyRound (x * 10) : ℚ) / 10

/-- `normal_ranges.ReferenceRange`. -/
structure ReferenceRange where
  min_value : ℚ
  max_value : ℚ
  unit : String
  aliases : List String
deriving DecidableEq

/-- `parser.ExtractedTest`. -/
structure ExtractedTest where
  raw_name : String
  value : ℚ
  line : String
deriving DecidableEq

/-- `analyzer.Status`. -/
inductive Status where
  | low
  | normal
  | high
deriving DecidableEq

/-- `analyzer.Severity`. -/
inductive Severity where
  | normal
  | mild
  | moderate
  | critical
deriving DecidableEq

/-- `analyzer.AnalyzedTest` (without the presentation-only `explanation`). -/
structure AnalyzedTest where
  canonical_name : String
  raw_name : String
  value : ℚ
  min_value : ℚ
  max_value : ℚ
  unit : String
  status : Status
  deviation_pct : ℚ
  severity : Severity
deriving DecidableEq

/-- `analyzer.AnalysisReport`. -/
structure AnalysisReport where
  matched : List AnalyzedTest
  unrecognized : List ExtractedTest
  health_score : ℤ
deriving DecidableEq

/-- `normal_ranges.NORMAL_RANGES`: the full catalog, in source order.
Modelled as an ordered association list (Python dicts preserve insertion
order, which matters for the alias index below). -/
def NORMAL_RANGES : List (String × ReferenceRange) := [
  ("hemoglobin", ⟨12.0, 17.5, "g/dL", ["hb", "hgb", "haemoglobin"]⟩),
  ("hematocrit", ⟨36.0, 50.0, "%", ["hct", "pcv", "packed cell volume"]⟩),
  ("rbc", ⟨4.0, 6.0, "million/µL",
    ["red blood cells", "red blood cell count", "rbc count", "erythrocytes"]⟩),
  ("wbc", ⟨4.0, 11.0, "thousand/µL",
    ["white blood cells", "white blood cell count", "wbc count", "leukocytes",
     "total wbc", "total leucocyte count", "tlc"]⟩),
  ("platelets", ⟨150.0, 400.0, "thousand/µL",
    ["platelet count", "plt", "thrombocytes"]⟩),
  ("mcv", ⟨80.0, 100.0, "fL", ["mean corpuscular volume"]⟩),
  ("mch", ⟨27.0, 33.0, "pg", ["mean corpuscular hemoglobin"]⟩),
  ("mchc", ⟨32.0, 36.0, "g/dL", ["mean corpuscular hemoglobin concentration"]⟩),
  ("rdw", ⟨11.5, 14.5, "%", ["red cell distribution width", "rdw-cv"]⟩),
  ("mpv", ⟨7.5, 11.5, "fL", ["mean platelet volume"]⟩),
  ("total cholesterol", ⟨0.0, 200.0, "mg/dL",
    ["cholesterol", "cholesterol total", "tc", "serum cholesterol"]⟩),
  ("ldl", ⟨0.0, 100.0, "mg/dL",
    ["ldl cholesterol", "ldl-c", "low density lipoprotein", "bad cholesterol"]⟩),
  ("hdl", ⟨40.0, 60.0, "mg/dL",
    ["hdl cholesterol", "hdl-c", "high density lipoprotein", "good cholesterol"]⟩),
  ("triglycerides", ⟨0.0, 150.0, "mg/dL", ["tg", "trigs", "triglyceride"]⟩),
  ("vldl", ⟨2.0, 30.0, "mg/dL",
    ["vldl cholesterol", "very low density lipoprotein"]⟩),
  ("sgot", ⟨5.0, 40.0, "U/L", ["ast", "aspartate aminotransferase", "sgot (ast)"]⟩),
  ("sgpt", ⟨7.0, 56.0, "U/L", ["alt", "alanine aminotransferase", "sgpt (alt)"]⟩),
  ("alkaline phosphatase", ⟨44.0, 147.0, "U/L", ["alp", "alk phos", "alkp"]⟩),
  ("total bilirubin", ⟨0.1, 1.2, "mg/dL",
    ["bilirubin", "bilirubin total", "t. bilirubin", "tbil"]⟩),
  ("direct bilirubin", ⟨0.0, 0.3, "mg/dL",
    ["conjugated bilirubin", "d. bilirubin", "dbil"]⟩),
  ("albumin", ⟨3.5, 5.5, "g/dL", ["serum albumin", "alb"]⟩),
  ("globulin", ⟨2.0, 3.5, "g/dL", ["serum globulin"]⟩),
  ("total protein", ⟨6.0, 8.3, "g/dL", ["protein total", "tp", "serum protein"]⟩),
  ("ag ratio", ⟨1.0, 2.5, "",
    ["albumin/globulin ratio", "a/g ratio", "a:g ratio"]⟩),
  ("ggt", ⟨0.0, 45.0, "U/L", ["gamma gt", "gamma-glutamyl transferase", "ggtp"]⟩),
  ("creatinine", ⟨0.6, 1.2, "mg/dL",
    ["serum creatinine", "creat", "s. creatinine"]⟩),
  ("bun", ⟨7.0, 20.0, "mg/dL", ["blood urea nitrogen", "urea nitrogen"]⟩),
  ("urea", ⟨15.0, 45.0, "mg/dL", ["blood urea", "serum urea"]⟩),
  ("uric acid", ⟨3.0, 7.0, "mg/dL", ["serum uric acid", "urate"]⟩),
  ("egfr", ⟨90.0, 120.0, "mL/min/1.73m²",
    ["estimated gfr", "glomerular filtration rate",
     "estimated glomerular filtration rate"]⟩),
  ("fasting glucose", ⟨70.0, 100.0, "mg/dL",
    ["fasting blood sugar", "fbs", "glucose fasting", "fasting plasma glucose",
     "fpg", "blood sugar fasting"]⟩),
  ("random glucose", ⟨70.0, 140.0, "mg/dL",
    ["random blood sugar", "rbs", "glucose random", "blood sugar random"]⟩),
  ("hba1c", ⟨4.0, 5.6, "%",
    ["glycated hemoglobin", "glycosylated hemoglobin", "a1c", "hemoglobin a1c",
     "hb a1c"]⟩),
  ("pp glucose", ⟨70.0, 140.0, "mg/dL",
    ["postprandial glucose", "post prandial blood sugar", "ppbs", "glucose pp"]⟩),
  ("tsh", ⟨0.4, 4.0, "mIU/L", ["thyroid stimulating hormone", "thyrotropin"]⟩),
  ("t3", ⟨80.0, 200.0, "ng/dL", ["triiodothyronine", "total t3", "serum t3"]⟩),
  ("t4", ⟨5.0, 12.0, "µg/dL", ["thyroxine", "total t4", "serum t4"]⟩),
  ("free t3", ⟨2.3, 4.2, "pg/mL", ["ft3"]⟩),
  ("free t4", ⟨0.8, 1.8, "ng/dL", ["ft4", "free thyroxine"]⟩),
  ("sodium", ⟨136.0, 145.0, "mEq/L", ["na", "na+", "serum sodium"]⟩),
  ("potassium", ⟨3.5, 5.0, "mEq/L", ["k", "k+", "serum potassium"]⟩),
  ("chloride", ⟨98.0, 106.0, "mEq/L", ["cl", "cl-", "serum chloride"]⟩),
  ("calcium", ⟨8.5, 10.5, "mg/dL", ["ca", "serum calcium", "total calcium"]⟩),
  ("phosphorus", ⟨2.5, 4.5, "mg/dL",
    ["phosphate", "serum phosphorus", "po4"]⟩),
  ("magnesium", ⟨1.7, 2.2, "mg/dL", ["mg", "serum magnesium"]⟩),
  ("iron", ⟨60.0, 170.0, "µg/dL", ["serum iron", "fe"]⟩),
  ("ferritin", ⟨12.0, 300.0, "ng/mL", ["serum ferritin"]⟩),
  ("tibc", ⟨250.0, 370.0, "µg/dL", ["total iron binding capacity"]⟩),
  ("vitamin d", ⟨30.0, 100.0, "ng/mL",
    ["25-hydroxy vitamin d", "25(oh)d", "vit d", "vitamin d3"]⟩),
  ("vitamin b12", ⟨200.0, 900.0, "pg/mL", ["b12", "cobalamin", "vit b12"]⟩),
  ("folate", ⟨2.7, 17.0, "ng/mL", ["folic acid", "serum folate", "vitamin b9"]⟩),
  ("esr", ⟨0.0, 20.0, "mm/hr", ["erythrocyte sedimentation rate", "sed rate"]⟩),
  ("crp", ⟨0.0, 3.0, "mg/L",
    ["c-reactive protein", "c reactive protein", "hs-crp"]⟩),
  ("psa", ⟨0.0, 4.0, "ng/mL", ["prostate specific antigen"]⟩)]

/-- Python `\s` on the strings of this program (ASCII whitespace). -/
def isPySpace (c : Char) : Bool :=
  c == ' ' || c == '\t' || c == '\n' || c == '\x0b' || c == '\x0c' || c == '\r'

/-- Python `str.strip()`. -/
def pyStrip (cs : List Char) : List Char :=
  ((cs.dropWhile isPySpace).reverse.dropWhile isPySpace).reverse

/-- Python `str.lower()` (the catalog and all keys are ASCII). -/
def pyLower (s : String) : String := String.mk (s.data.map Char.toLower)

/-- The key normalisation applied by `normal_ranges.lookup`:
`test_name.strip().lower()`. -/
def normKey (s : String) : String := pyLower (String.mk (pyStrip s.data))

/-- Python dict read access on an ordered list of key/value assignments:
the last assignment to a key wins. -/
def dictGet {α : Type} (m : List (String × α)) (key : String) : Option α :=
  m.foldl (fun acc p => if p.1 = key then some p.2 else acc) none

/-- `normal_ranges._build_alias_map`: for each canonical entry, assign
`canonical → canonical` and then `alias.lower() → canonical`, in catalog
order. -/
def _build_alias_map : List (String × String) :=
  NORMAL_RANGES.foldr
    (fun p acc => (p.1, p.1) :: (p.2.aliases.map (fun a => (pyLower a, p.1)) ++ acc))
    []

/-- `normal_ranges._ALIAS_MAP`. -/
def _ALIAS_MAP : List (String × String) := _build_alias_map

/-- `normal_ranges.lookup`: case-insensitive, whitespace-trimmed lookup of a
test name or alias.  (`NORMAL_RANGES[canonical]` cannot fail in the source
because every alias-map value is a catalog key; the impossible miss is
mapped to `none`.) -/
def lookup (test_name : String) : Option (String × ReferenceRange) :=
  match dictGet _ALIAS_MAP (normKey test_name) with
  | none => none
  | some canonical =>
    match dictGet NORMAL_RANGES canonical with
    | none => none
    | some ref => some (canonical, ref)

/-- `analyzer._classify`: status plus deviation percentage for one value. -/
def _classify (value : ℚ) (ref : ReferenceRange) : Status × ℚ :=
  if value < ref.min_value then
    let span := if ref.min_value ≠ 0 then ref.min_value else 1
    (Status.low, pyRound1 (|ref.min_value - value| / span * 100))
  else if value > ref.max_value then
    let span := if ref.max_value ≠ 0 then ref.max_value else 1
    (Status.high, pyRound1 (|value - ref.max_value| / span * 100))
  else
    (Status.normal, 0)

/-- `analyzer._severity_level`: map status and deviation to a severity tier. -/
def _severity_level (status : Status) (deviation_pct : ℚ) : Severity :=
  if status = Status.normal then Severity.normal
  else if status = Status.high then
    if deviation_pct ≤ 10 then Severity.mild
    else if deviation_pct ≤ 30 then Severity.moderate
    else Severity.critical
  else
    if deviation_pct ≤ 10 then Severity.mild
    else if deviation_pct ≤ 25 then Severity.moderate
    else Severity.critical

/-- One loop step of the penalty accumulation in `_compute_health_score`. -/
def penaltyStep (maxPenaltyPerTest : ℚ) (penalty : ℚ) (t : AnalyzedTest) : ℚ :=
  if t.status ≠ Status.normal then
    let raw := min t.deviation_pct 100
    penalty + maxPenaltyPerTest * (raw / (raw + 20))
  else penalty

/-- The total penalty accumulated by the loop in `_compute_health_score`. -/
def _health_penalty (tests : List AnalyzedTest) : ℚ :=
  tests.foldl (penaltyStep (100 / (tests.length : ℚ))) 0

/-- `analyzer._compute_health_score`. -/
def _compute_health_score (tests : List AnalyzedTest) : ℤ :=
  if tests.isEmpty then 100
  else max 0 (pyRound (100 - _health_penalty tests))

/-- Python `str.splitlines()` restricted to the line terminators that occur
in this program's inputs (`\n`, `\r\n`, `\r`). -/
def pySplitlines : List Char → List Char → List (List Char)
  | [], acc => if acc.isEmpty then [] else [acc.reverse]
  | '\r' :: '\n' :: rest, acc => acc.reverse :: pySplitlines rest []
  | '\r' :: rest, acc => acc.reverse :: pySplitlines rest []
  | '\n' :: rest, acc => acc.reverse :: pySplitlines rest []
  | c :: rest, acc => pySplitlines rest (c :: acc)

/-- Literal-string matching: does `l` start with `w`, and if so what is left? -/
def dropLit : List Char → List Char → Option (List Char)
  | l, [] => some l
  | [], _ :: _ => none
  | c :: l, w :: ws => if c = w then dropLit l ws else none

/-- After the literal `w`, require one whitespace character (the regex tail
`\s` of the noise patterns `^page\s`, `^date\s`, ...). -/
def litThenSpace (l : List Char) (w : List Char) : Bool :=
  match dropLit l w with
  | some (c :: _) => isPySpace c
  | _ => false

/-- Python `\w` (ASCII): letters, digits, underscore. -/
def isWordChar (c : Char) : Bool := c.isAlphanum || c == '_'

/-- Regex `\b` right after a just-consumed word character: the rest must not
begin with a word character. -/
def boundaryOk (l : List Char) : Bool :=
  match l with
  | [] => true
  | c :: _ => !(isWordChar c)

/-- The noise pattern `^sample\s*id`. -/
def sampleIdPat (l : List Char) : Bool :=
  match dropLit l "sample".data with
  | some rest => (dropLit (rest.dropWhile isPySpace) "id".data).isSome
  | none => false

/-- The noise pattern `^test\s+name\b`. -/
def testNamePat (l : List Char) : Bool :=
  match dropLit l "test".data with
  | some (c :: rest) =>
    if isPySpace c then
      match dropLit (rest.dropWhile isPySpace) "name".data with
      | some rest2 => boundaryOk rest2
      | none => false
    else false
  | _ => false

/-- The noise pattern `^this\s+report`. -/
def thisReportPat (l : List Char) : Bool :=
  match dropLit l "this".data with
  | some (c :: rest) =>
    if isPySpace c then (dropLit (rest.dropWhile isPySpace) "report".data).isSome
    else false
  | _ => false

/-- The noise pattern `\*{2,}` (anywhere in the line). -/
def starBannerPat : List Char → Bool
  | '*' :: '*' :: _ => true
  | _ :: rest => starBannerPat rest
  | [] => false

/-- `parser._NOISE_PATTERNS.search` on an already lower-cased, stripped
line. -/
def noiseSearch (l : List Char) : Bool :=
  litThenSpace l "page".data || litThenSpace l "date".data ||
  sampleIdPat l || litThenSpace l "patient".data ||
  litThenSpace l "referred".data || litThenSpace l "age".data ||
  testNamePat l || thisReportPat l || starBannerPat l ||
  litThenSpace l "dr.".data || litThenSpace l "chief".data

/-- `parser._is_noise`. -/
def _is_noise (line : String) : Bool :=
  let stripped := pyStrip line.data
  if stripped.length < 4 then true
  else noiseSearch (stripped.map Char.toLower)

/-- The test-name character class of both extraction regexes:
`[A-Za-z0-9 /\-\(\),.:']`. -/
def isNameChar (c : Char) : Bool :=
  c.isAlpha || c.isDigit || c == ' ' || c == '/' || c == '-' || c == '(' ||
  c == ')' || c == ',' || c == '.' || c == ':' || c == '\''

/-- The separator character class `[:\.\-–—]` of `_TABULAR_PATTERN`. -/
def isSepChar (c : Char) : Bool :=
  c == ':' || c == '.' || c == '-' || c == '–' || c == '—'

/-- Regex `\d+(\.\d+)?\b` anchored at `cs`, with the backtracking of the
optional fraction group: the matched numeric token, or `none`. -/
def matchValue (cs : List Char) : Option (List Char) :=
  match cs with
  | c :: _ =>
    if c.isDigit then
      let d := cs.takeWhile Char.isDigit
      match cs.dropWhile Char.isDigit with
      | '.' :: r2 =>
        match r2 with
        | c2 :: _ =>
          if c2.isDigit then
            let f := r2.takeWhile Char.isDigit
            if boundaryOk (r2.dropWhile Char.isDigit) then some (d ++ '.' :: f)
            else some d
          else some d
        | [] => some d
      | r1 => if boundaryOk r1 then some d else none
    else none
  | [] => none

/-- The tail `\s*[:\.\-–—]*\s+ (?P<value>\d+(\.\d+)?) \b` of
`_TABULAR_PATTERN`, anchored right after a candidate name.  The consumed
separator run is forced to be the maximal run of whitespace/separator
characters, and it must have the shape `\s* sep* \s+`. -/
def tabularSepValue (rest : List Char) : Option (List Char) :=
  let run := rest.takeWhile (fun c => isPySpace c || isSepChar c)
  let after := rest.dropWhile (fun c => isPySpace c || isSepChar c)
  if run.isEmpty then none
  else
    let r1 := run.dropWhile isPySpace
    if r1.isEmpty then matchValue after
    else
      let r2 := r1.dropWhile isSepChar
      if !r2.isEmpty && r2.all isPySpace then matchValue after else none

/-- The tail `\s*:\s* (?P<value>\d+(\.\d+)?) \b` of `_COLON_PATTERN`,
anchored right after a candidate name. -/
def colonSepValue (rest : List Char) : Option (List Char) :=
  match rest.dropWhile isPySpace with
  | ':' :: r2 => matchValue (r2.dropWhile isPySpace)
  | _ => none

/-- The lazy name loop shared by both extraction regexes: starting from the
shortest admissible name (regex `*?` / `+?`), try the separator-and-value
tail, extending the name one name-class character at a time. -/
def scanNameValue (sv : List Char → Option (List Char)) (minLen : Nat) :
    List Char → List Char → Option (List Char × List Char)
  | acc, rest =>
    match (if minLen ≤ acc.length then sv rest else none) with
    | some v => some (acc.reverse, v)
    | none =>
      match rest with
      | [] => none
      | c :: rs =>
        if isNameChar c then scanNameValue sv minLen (c :: acc) rs else none

/-- `parser._TABULAR_PATTERN.match`: name (at least one char, starting with
a letter), separators, first numeric token. -/
def matchTabular (line : List Char) : Option (List Char × List Char) :=
  match line.dropWhile isPySpace with
  | c :: rs => if c.isAlpha then scanNameValue tabularSepValue 1 [c] rs else none
  | [] => none

/-- `parser._COLON_PATTERN.match`: name (at least two chars, starting with a
letter), colon, first numeric token. -/
def matchColon (line : List Char) : Option (List Char × List Char) :=
  match line.dropWhile isPySpace with
  | c :: rs => if c.isAlpha then scanNameValue colonSepValue 2 [c] rs else none
  | [] => none

/-- The whitespace collapsing of `parser._clean_name`
(`re.sub(r"\s+", " ", raw)`); the flag records whether the previous
character was whitespace. -/
def collapseWS : Bool → List Char → List Char
  | _, [] => []
  | prevWS, c :: rest =>
    if isPySpace c then
      if prevWS then collapseWS true rest else ' ' :: collapseWS true rest
    else c :: collapseWS false rest

/-- `parser._clean_name`: collapse whitespace runs, strip, then strip
trailing `:`, `.`, `-`, and spaces. -/
def _clean_name (raw : List Char) : List Char :=
  let n := pyStrip (collapseWS false raw)
  (n.reverse.dropWhile (fun c => c == ':' || c == '.' || c == '-' || c == ' ')).reverse

/-- Numeric token (`\d+(\.\d+)?`) to a rational, modelling Python
`float(value_str)`. -/
def digitsToNat (cs : List Char) : Nat :=
  cs.foldl (fun n c => 10 * n + (c.toNat - '0'.toNat)) 0

/-- Numeric token to a rational value. -/
def valueToRat (cs : List Char) : ℚ :=
  let intPart := cs.takeWhile Char.isDigit
  match cs.dropWhile Char.isDigit with
  | '.' :: frac => (digitsToNat intPart : ℚ) + (digitsToNat frac : ℚ) / 10 ^ frac.length
  | _ => (digitsToNat intPart : ℚ)

/-- The guards of the local `_add` helper of `parse_lab_values`: reject
cleaned names shorter than 2 characters and names matching
`[\d\s.]+`. -/
def mkCandidate (name : List Char) (value : List Char) (line : String) :
    Option ExtractedTest :=
  let cleaned := _clean_name name
  if cleaned.length < 2 then none
  else if cleaned.all (fun c => c.isDigit || isPySpace c || c == '.') then none
  else some ⟨String.mk cleaned, valueToRat value, String.mk (pyStrip line.data)⟩

/-- One line of `parse_lab_values`: noise filter, then the colon regex, then
the tabular regex, then the `_add` guards. -/
def lineCandidate (line : String) : Option ExtractedTest :=
  if _is_noise line then none
  else
    match matchColon line.data with
    | some (n, v) => mkCandidate n v line
    | none =>
      match matchTabular line.data with
      | some (n, v) => mkCandidate n v line
      | none => none

/-- The deduplication key of `parse_lab_values`: `cleaned.lower()` (the
stored `raw_name` is exactly the cleaned name). -/
def testKey (t : ExtractedTest) : String := pyLower t.raw_name

/-- Insertion into the `seen` dict of `parse_lab_values`: first occurrence
of a key wins, insertion order is preserved. -/
def insertCandidate (seen : List ExtractedTest) (t : ExtractedTest) :
    List ExtractedTest :=
  if seen.any (fun s => testKey s = testKey t) then seen else seen ++ [t]

/-- `parser.parse_lab_values`. -/
def parse_lab_values (text : String) : List ExtractedTest :=
  ((pySplitlines text.data []).map String.mk).foldl
    (fun seen line =>
      match lineCandidate line with
      | none => seen
      | some t => insertCandidate seen t) []

/-- All candidates a text produces, in line order, before deduplication. -/
def lineCandidates (text : String) : List ExtractedTest :=
  ((pySplitlines text.data []).map String.mk).filterMap lineCandidate

/-- The body of the loop of `analyzer.analyze` for one recognized test. -/
def analyzeOne (ext : ExtractedTest) (canonical_name : String)
    (ref : ReferenceRange) : AnalyzedTest :=
  let sd := _classify ext.value ref
  { canonical_name := canonical_name
    raw_name := ext.raw_name
    value := ext.value
    min_value := ref.min_value
    max_value := ref.max_value
    unit := ref.unit
    status := sd.1
    deviation_pct := sd.2
    severity := _severity_level sd.1 sd.2 }

/-- One loop iteration of `analyzer.analyze`. -/
def analyzeStep (report : AnalysisReport) (ext : ExtractedTest) :
    AnalysisReport :=
  match lookup ext.raw_name with
  | none => { report with unrecognized := report.unrecognized ++ [ext] }
  | some (c, ref) => { report with matched := report.matched ++ [analyzeOne ext c ref] }

/-- `analyzer.analyze`. -/
def analyze (tests : List ExtractedTest) : AnalysisReport :=
  let report := tests.foldl analyzeStep ⟨[], [], 100⟩
  { report with health_score := _compute_health_score report.matched }

/-- A concrete abnormal `AnalyzedTest` (Fasting Glucose 118 against 70-100),
used as a witness input below. -/
def sampleHighTest : AnalyzedTest :=
  ⟨"fasting glucose", "Fasting Glucose", 118, 70, 100, "mg/dL",
   Status.high, 18, Severity.moderate⟩

/-- A concrete recognized normal input (Sodium 141), used as a witness
input below. -/
def sodiumExtracted : ExtractedTest := ⟨"sodium", 141, "Sodium : 141"⟩

/-- A concrete unrecognized input, used as a witness input below. -/
def xyzExtracted : ExtractedTest := ⟨"XYZ-Marker", 42, "XYZ-Marker 42"⟩

/-- The analyzed form of `sodiumExtracted`. -/
def sodiumAnalyzed : AnalyzedTest :=
  ⟨"sodium", "sodium", 141, 136, 145, "mEq/L", Status.normal, 0, Severity.normal⟩

/-! ### Helper lemmas about `pyRound` -/

theorem pyRound_nonneg {x : ℚ} (hx : 0 ≤ x) : 0 ≤ pyRound x := by
  have hn : (0 : ℤ) ≤ ⌊x⌋ := Int.le_floor.mpr (by exact_mod_cast hx)
  unfold pyRound
  split
  · exact hn
  · split
    · omega
    · split <;> omega

theorem pyRound_le_100 {x : ℚ} (hx : x ≤ 100) : pyRound x ≤ 100 := by
  have hfl : (⌊x⌋ : ℚ) ≤ x := Int.floor_le x
  have hn : ⌊x⌋ ≤ 100 := by exact_mod_cast hfl.trans hx
  rcases eq_or_lt_of_le hn with h100 | h99
  · have hx100 : x = 100 := by
      have h1 : (100 : ℚ) ≤ x := by
        have := hfl
        rw [h100] at this
        exact_mod_cast this
      linarith
    subst hx100
    with_unfolding_all decide
  · unfold pyRound
    split
    · omega
    · split
      · omega
      · split <;> omega

theorem pyRound_ge_17 {x : ℚ} (hx : 100/6 ≤ x) : 17 ≤ pyRound x := by
  by_cases h : x < 17
  · have h1 : (16 : ℤ) ≤ ⌊x⌋ := Int.le_floor.mpr (by push_cast; linarith)
    have h2 : ⌊x⌋ < 17 := Int.floor_lt.mpr (by push_cast; linarith)
    have hfl16 : ⌊x⌋ = 16 := by omega
    have hfrac : 1/2 < x - (⌊x⌋ : ℚ) := by rw [hfl16]; push_cast; linarith
    unfold pyRound
    rw [if_neg (by linarith), if_pos hfrac, hfl16]
    norm_num
  · push_neg at h
    have hn : (17 : ℤ) ≤ ⌊x⌋ := Int.le_floor.mpr (by exact_mod_cast h)
    unfold pyRound
    split
    · omega
    · split
      · omega
      · split <;> omega

theorem pyRound1_nonneg {x : ℚ} (hx : 0 ≤ x) : 0 ≤ pyRound1 x := by
  have h : (0 : ℤ) ≤ pyRound (x * 10) := pyRound_nonneg (by linarith)
  have h2 : (0 : ℚ) ≤ (pyRound (x * 10) : ℚ) := by exact_mod_cast h
  unfold pyRound1
  positivity

/-! ### Helper lemmas about the health-score penalty loop -/

theorem penaltyStep_ge {maxPen p : ℚ} (hmp : 0 ≤ maxPen) {t : AnalyzedTest}
    (ht : 0 ≤ t.deviation_pct) : p ≤ penaltyStep maxPen p t := by
  unfold penaltyStep
  split
  · have hraw : 0 ≤ min t.deviation_pct 100 := le_min ht (by norm_num)
    have hpos : (0 : ℚ) < min t.deviation_pct 100 + 20 := by linarith
    have hq : 0 ≤ min t.deviation_pct 100 / (min t.deviation_pct 100 + 20) :=
      div_nonneg hraw hpos.le
    nlinarith
  · exact le_refl p

theorem penaltyStep_le {maxPen p : ℚ} (hmp : 0 ≤ maxPen) {t : AnalyzedTest}
    (ht : 0 ≤ t.deviation_pct) :
    penaltyStep maxPen p t ≤ p + maxPen * (5/6) := by
  unfold penaltyStep
  split
  · have hraw : 0 ≤ min t.deviation_pct 100 := le_min ht (by norm_num)
    have hle : min t.deviation_pct 100 ≤ 100 := min_le_right _ _
    have hpos : (0 : ℚ) < min t.deviation_pct 100 + 20 := by linarith
    have hq : min t.deviation_pct 100 / (min t.deviation_pct 100 + 20) ≤ 5/6 := by
      rw [div_le_iff₀ hpos]
      linarith
    nlinarith
  · nlinarith

theorem penalty_foldl_ge (maxPen : ℚ) (hmp : 0 ≤ maxPen) :
    ∀ (l : List AnalyzedTest) (p : ℚ), (∀ t ∈ l, 0 ≤ t.deviation_pct) →
      p ≤ l.foldl (penaltyStep maxPen) p := by
  intro l
  induction l with
  | nil => intro p _; exact le_refl p
  | cons t ts ih =>
    intro p hdev
    have h1 : p ≤ penaltyStep maxPen p t :=
      penaltyStep_ge hmp (hdev t (List.mem_cons_self t ts))
    have h2 : penaltyStep maxPen p t ≤
        ts.foldl (penaltyStep maxPen) (penaltyStep maxPen p t) :=
      ih (penaltyStep maxPen p t) (fun u hu => hdev u (List.mem_cons_of_mem t hu))
    calc p ≤ penaltyStep maxPen p t := h1
      _ ≤ _ := h2

theorem penalty_foldl_le (maxPen : ℚ) (hmp : 0 ≤ maxPen) :
    ∀ (l : List AnalyzedTest) (p : ℚ), (∀ t ∈ l, 0 ≤ t.deviation_pct) →
      l.foldl (penaltyStep maxPen) p ≤ p + l.length * (maxPen * (5/6)) := by
  intro l
  induction l with
  | nil => intro p _; simp
  | cons t ts ih =>
    intro p hdev
    have h1 : penaltyStep maxPen p t ≤ p + maxPen * (5/6) :=
      penaltyStep_le hmp (hdev t (List.mem_cons_self t ts))
    have h2 : ts.foldl (penaltyStep maxPen) (penaltyStep maxPen p t) ≤
        penaltyStep maxPen p t + ts.length * (maxPen * (5/6)) :=
      ih (penaltyStep maxPen p t) (fun u hu => hdev u (List.mem_cons_of_mem t hu))
    have hlen : ((t :: ts).length : ℚ) = (ts.length : ℚ) + 1 := by
      push_cast [List.length_cons]
      ring
    calc (t :: ts).foldl (penaltyStep maxPen) p
        ≤ penaltyStep maxPen p t + ts.length * (maxPen * (5/6)) := h2
      _ ≤ p + maxPen * (5/6) + ts.length * (maxPen * (5/6)) := by linarith
      _ = p + (t :: ts).length * (maxPen * (5/6)) := by rw [hlen]; ring

theorem health_penalty_nonneg (tests : List AnalyzedTest)
    (hdev : ∀ t ∈ tests, 0 ≤ t.deviation_pct) : 0 ≤ _health_penalty tests := by
  have hmp : (0 : ℚ) ≤ 100 / (tests.length : ℚ) :=
    div_nonneg (by norm_num) (by positivity)
  simpa [_health_penalty] using
    penalty_foldl_ge (100 / (tests.length : ℚ)) hmp tests 0 hdev

theorem health_penalty_le (tests : List AnalyzedTest) (hne : tests ≠ [])
    (hdev : ∀ t ∈ tests, 0 ≤ t.deviation_pct) :
    _health_penalty tests ≤ 500/6 := by
  have hlen : tests.length ≠ 0 := by
    simpa [List.length_eq_zero] using hne
  have hlenQ : (tests.length : ℚ) ≠ 0 := Nat.cast_ne_zero.mpr hlen
  have hmp : (0 : ℚ) ≤ 100 / (tests.length : ℚ) :=
    div_nonneg (by norm_num) (by positivity)
  have h := penalty_foldl_le (100 / (tests.length : ℚ)) hmp tests 0 hdev
  have heq : (tests.length : ℚ) * (100 / (tests.length : ℚ) * (5/6)) = 500/6 := by
    field_simp
    ring
  unfold _health_penalty
  calc tests.foldl (penaltyStep (100 / (tests.length : ℚ))) 0
      ≤ 0 + tests.length * (100 / (tests.length : ℚ) * (5/6)) := h
    _ = 500/6 := by rw [zero_add, heq]


/-! ### C2: health score bounds -/

/-- C2: for every list of `AnalyzedTest` (whose deviations are nonnegative,
the documented invariant of that type), `_compute_health_score` returns an
integer between 0 and 100 inclusive, and exactly 100 for the empty list. -/
theorem c2_health_score_bounds (tests : List AnalyzedTest)
    (hdev : ∀ t ∈ tests, 0 ≤ t.deviation_pct) :
    0 ≤ _compute_health_score tests ∧ _compute_health_score tests ≤ 100 ∧
    (tests = [] → _compute_health_score tests = 100) := by
  rcases eq_or_ne tests [] with hE | hE
  · subst hE
    refine ⟨by norm_num [_compute_health_score], by norm_num [_compute_health_score],
      fun _ => by norm_num [_compute_health_score]⟩
  · have hpen : 0 ≤ _health_penalty tests := health_penalty_nonneg tests hdev
    have hsc : _compute_health_score tests =
        max 0 (pyRound (100 - _health_penalty tests)) := by
      unfold _compute_health_score
      rw [if_neg (by simpa using hE)]
    refine ⟨?_, ?_, fun h => absurd h hE⟩
    · rw [hsc]
      exact le_max_left _ _
    · rw [hsc]
      have h100 : pyRound (100 - _health_penalty tests) ≤ 100 :=
        pyRound_le_100 (by linarith)
      exact max_le (by norm_num) h100

theorem c2_witness :
    (∀ t ∈ [sampleHighTest], 0 ≤ t.deviation_pct) ∧
    (0 ≤ _compute_health_score [sampleHighTest] ∧
     _compute_health_score [sampleHighTest] ≤ 100 ∧
     ([sampleHighTest] = [] → _compute_health_score [sampleHighTest] = 100)) :=
  ⟨by with_unfolding_all decide,
   c2_health_score_bounds [sampleHighTest] (by with_unfolding_all decide)⟩

/-! ### C10: the score floor 0 is unreachable -/

/-- C10: for every nonempty list of `AnalyzedTest` with nonnegative
deviations, the score is at least 17, the `max 0 _` floor never decides
(the score equals the rounded value directly), and the total penalty is at
most `500/6`. -/
theorem c10_health_score_floor (tests : List AnalyzedTest) (hne : tests ≠ [])
    (hdev : ∀ t ∈ tests, 0 ≤ t.deviation_pct) :
    17 ≤ _compute_health_score tests ∧
    _compute_health_score tests = pyRound (100 - _health_penalty tests) ∧
    _health_penalty tests ≤ 500/6 := by
  have hple := health_penalty_le tests hne hdev
  have hr : 17 ≤ pyRound (100 - _health_penalty tests) :=
    pyRound_ge_17 (by linarith)
  have hsc : _compute_health_score tests =
      max 0 (pyRound (100 - _health_penalty tests)) := by
    unfold _compute_health_score
    rw [if_neg (by simpa using hne)]
  have hmax : max (0 : ℤ) (pyRound (100 - _health_penalty tests)) =
      pyRound (100 - _health_penalty tests) := max_eq_right (by linarith)
  exact ⟨by rw [hsc, hmax]; exact hr, by rw [hsc, hmax], hple⟩

theorem c10_witness :
    ([sampleHighTest] ≠ ([] : List AnalyzedTest)) ∧
    (∀ t ∈ [sampleHighTest], 0 ≤ t.deviation_pct) ∧
    (17 ≤ _compute_health_score [sampleHighTest] ∧
     _compute_health_score [sampleHighTest] =
       pyRound (100 - _health_penalty [sampleHighTest]) ∧
     _health_penalty [sampleHighTest] ≤ 500/6) :=
  ⟨by with_unfolding_all decide, by with_unfolding_all decide,
   c10_health_score_floor [sampleHighTest] (by with_unfolding_all decide)
     (by with_unfolding_all decide)⟩

/-! ### C4: asymmetric severity thresholds -/

/-- C4: `_severity_level` applies direction-dependent thresholds: for High,
Mild up to 10, Moderate up to 30, Critical above; for Low, Mild up to 10,
Moderate up to 25, Critical above; in particular deviation 28 is Moderate
when High but Critical when Low. -/
theorem c4_severity_thresholds (d : ℚ) (_hd : 0 ≤ d) :
    (_severity_level Status.high d =
      if d ≤ 10 then Severity.mild
      else if d ≤ 30 then Severity.moderate
      else Severity.critical) ∧
    (_severity_level Status.low d =
      if d ≤ 10 then Severity.mild
      else if d ≤ 25 then Severity.moderate
      else Severity.critical) ∧
    _severity_level Status.high 28 = Severity.moderate ∧
    _severity_level Status.low 28 = Severity.critical := by
  refine ⟨?_, ?_, by with_unfolding_all decide, by with_unfolding_all decide⟩
  · simp [_severity_level]
  · simp [_severity_level]

theorem c4_witness :
    ((0 : ℚ) ≤ 28) ∧
    _severity_level Status.high 28 = Severity.moderate ∧
    _severity_level Status.low 28 = Severity.critical :=
  ⟨by norm_num, (c4_severity_thresholds 28 (by norm_num)).2.2⟩

/-! ### C5: totality and the zero-guard of `_classify` -/

/-- C5: `_classify` is total and never divides by zero: the span it divides
by is the violated boundary unless that boundary is 0, in which case the
span is 1, so the deviation is always computed -- in the zero-boundary case
as the absolute excess times 100. -/
theorem c5_classify_zero_guard (v : ℚ) (ref : ReferenceRange) :
    ((if ref.min_value ≠ 0 then ref.min_value else (1 : ℚ)) ≠ 0) ∧
    ((if ref.max_value ≠ 0 then ref.max_value else (1 : ℚ)) ≠ 0) ∧
    (v < ref.min_value →
      _classify v ref = (Status.low,
        pyRound1 (|ref.min_value - v| /
          (if ref.min_value ≠ 0 then ref.min_value else 1) * 100))) ∧
    (¬ v < ref.min_value → v > ref.max_value →
      _classify v ref = (Status.high,
        pyRound1 (|v - ref.max_value| /
          (if ref.max_value ≠ 0 then ref.max_value else 1) * 100))) ∧
    (ref.min_value = 0 → v < ref.min_value →
      _classify v ref = (Status.low, pyRound1 (|ref.min_value - v| * 100))) := by
  have hlow : ∀ h : v < ref.min_value,
      _classify v ref = (Status.low,
        pyRound1 (|ref.min_value - v| /
          (if ref.min_value ≠ 0 then ref.min_value else 1) * 100)) := by
    intro h
    simp [_classify, h]
  refine ⟨?_, ?_, hlow, ?_, ?_⟩
  · split
    · assumption
    · norm_num
  · split
    · assumption
    · norm_num
  · intro h1 h2
    simp [_classify, h1, h2]
  · intro h0 h
    rw [hlow h, h0]
    norm_num

theorem c5_witness :
    ((-5 : ℚ) < (0 : ℚ)) ∧
    _classify (-5) ⟨0, 200, "mg/dL", []⟩ =
      (Status.low, pyRound1 (|(0 : ℚ) - (-5)| * 100)) := by
  refine ⟨by norm_num, ?_⟩
  exact (c5_classify_zero_guard (-5) ⟨0, 200, "mg/dL", []⟩).2.2.2.2 rfl (by norm_num)


/-! ### C6: alias symmetry, case/whitespace insensitivity, soft misses -/

theorem dictGet_skip {α : Type} (k : String) :
    ∀ (m : List (String × α)) (acc : Option α), (∀ p ∈ m, p.1 ≠ k) →
      m.foldl (fun acc p => if p.1 = k then some p.2 else acc) acc = acc := by
  intro m
  induction m with
  | nil => intro acc _; rfl
  | cons p ps ih =>
    intro acc h
    have hp : p.1 ≠ k := h p (List.mem_cons_self p ps)
    simp only [List.foldl_cons]
    rw [if_neg hp]
    exact ih acc (fun q hq => h q (List.mem_cons_of_mem p hq))

theorem dictGet_eq_none {α : Type} (m : List (String × α)) (k : String)
    (h : ∀ p ∈ m, p.1 ≠ k) : dictGet m k = none :=
  dictGet_skip k m none h

theorem dictGet_mem_aux {α : Type} (k : String) (v : α) :
    ∀ (m : List (String × α)) (acc : Option α),
      m.foldl (fun acc p => if p.1 = k then some p.2 else acc) acc = some v →
      (k, v) ∈ m ∨ acc = some v := by
  intro m
  induction m with
  | nil =>
    intro acc h
    exact Or.inr h
  | cons p ps ih =>
    intro acc h
    simp only [List.foldl_cons] at h
    rcases ih _ h with hmem | hacc
    · exact Or.inl (List.mem_cons_of_mem p hmem)
    · by_cases hk : p.1 = k
      · rw [if_pos hk] at hacc
        have hv : p.2 = v := Option.some.inj hacc
        have hpkv : p = (k, v) := by
          rw [← hk, ← hv]
        exact Or.inl (hpkv ▸ List.mem_cons_self p ps)
      · rw [if_neg hk] at hacc
        exact Or.inr hacc

theorem dictGet_some_mem {α : Type} (m : List (String × α)) (k : String)
    (v : α) (h : dictGet m k = some v) : (k, v) ∈ m := by
  rcases dictGet_mem_aux k v m none h with h1 | h2
  · exact h1
  · exact absurd h2 (by simp)

theorem build_alias_keys :
    ∀ (L : List (String × ReferenceRange)) (q : String × String),
      q ∈ L.foldr (fun p acc =>
        (p.1, p.1) :: (p.2.aliases.map (fun a => (pyLower a, p.1)) ++ acc)) [] →
      ∃ p ∈ L, q.1 = p.1 ∨ ∃ a ∈ p.2.aliases, q.1 = pyLower a := by
  intro L
  induction L with
  | nil =>
    intro q h
    simp at h
  | cons p ps ih =>
    intro q hq
    simp only [List.foldr_cons, List.mem_cons, List.mem_append, List.mem_map] at hq
    rcases hq with h1 | h2 | h3
    · exact ⟨p, List.mem_cons_self p ps, Or.inl (by rw [h1])⟩
    · obtain ⟨a, ha, rfl⟩ := h2
      exact ⟨p, List.mem_cons_self p ps, Or.inr ⟨a, ha, rfl⟩⟩
    · obtain ⟨p2, hp2, hor⟩ := ih q h3
      exact ⟨p2, List.mem_cons_of_mem p hp2, hor⟩

/-- C6: every alias of a catalog entry looks up to the same result as the
canonical name; lookup only depends on the stripped, lower-cased key; and
a name that is neither a canonical name nor an alias yields `none`. -/
theorem c6_lookup_alias_symmetry :
    (∀ p ∈ NORMAL_RANGES, ∀ a ∈ p.2.aliases, lookup a = lookup p.1) ∧
    (∀ s t : String, normKey s = normKey t → lookup s = lookup t) ∧
    (∀ s : String,
      (∀ p ∈ NORMAL_RANGES,
        normKey s ≠ p.1 ∧ ∀ a ∈ p.2.aliases, normKey s ≠ pyLower a) →
      lookup s = none) := by
  refine ⟨by with_unfolding_all decide, ?_, ?_⟩
  · intro s t h
    unfold lookup
    rw [h]
  · intro s h
    have hnone : dictGet _ALIAS_MAP (normKey s) = none := by
      apply dictGet_eq_none
      intro q hq
      obtain ⟨p, hp, hor⟩ := build_alias_keys NORMAL_RANGES q hq
      rcases hor with h1 | ⟨a, ha, h2⟩
      · rw [h1]
        exact Ne.symm (h p hp).1
      · rw [h2]
        exact Ne.symm ((h p hp).2 a ha)
    unfold lookup
    rw [hnone]

theorem c6_witness :
    (("hemoglobin", (⟨12.0, 17.5, "g/dL", ["hb", "hgb", "haemoglobin"]⟩ :
        ReferenceRange)) ∈ NORMAL_RANGES ∧
      "hb" ∈ ["hb", "hgb", "haemoglobin"]) ∧
    lookup "hb" = lookup "hemoglobin" :=
  ⟨⟨by with_unfolding_all decide, by with_unfolding_all decide⟩,
   c6_lookup_alias_symmetry.1
     ("hemoglobin", ⟨12.0, 17.5, "g/dL", ["hb", "hgb", "haemoglobin"]⟩)
     (by with_unfolding_all decide) "hb" (by with_unfolding_all decide)⟩


/-! ### Helper lemmas about `_classify`, `_severity_level` and `analyze` -/

theorem severity_normal_iff (s : Status) (d : ℚ) :
    _severity_level s d = Severity.normal ↔ s = Status.normal := by
  cases s <;> simp [_severity_level] <;> split_ifs <;> simp

theorem classify_fst_normal (v : ℚ) (ref : ReferenceRange) :
    (_classify v ref).1 = Status.normal → (_classify v ref).2 = 0 := by
  unfold _classify
  split_ifs <;> simp

theorem classify_snd_nonneg (v : ℚ) (ref : ReferenceRange)
    (hmin : 0 ≤ ref.min_value) (hmax : 0 < ref.max_value) :
    0 ≤ (_classify v ref).2 := by
  unfold _classify
  by_cases h1 : v < ref.min_value
  · rw [if_pos h1]
    have hspan : (0 : ℚ) < (if ref.min_value ≠ 0 then ref.min_value else 1) := by
      by_cases hz : ref.min_value = 0
      · rw [if_neg (not_not.mpr hz)]
        norm_num
      · rw [if_pos hz]
        exact lt_of_le_of_ne hmin (Ne.symm hz)
    have habs : (0 : ℚ) ≤ |ref.min_value - v| := abs_nonneg _
    show 0 ≤ pyRound1 (|ref.min_value - v| /
      (if ref.min_value ≠ 0 then ref.min_value else 1) * 100)
    exact pyRound1_nonneg (mul_nonneg (div_nonneg habs hspan.le) (by norm_num))
  · rw [if_neg h1]
    by_cases h2 : v > ref.max_value
    · rw [if_pos h2]
      have hspan : (0 : ℚ) < (if ref.max_value ≠ 0 then ref.max_value else 1) := by
        rw [if_pos (ne_of_gt hmax)]
        exact hmax
      have habs : (0 : ℚ) ≤ |v - ref.max_value| := abs_nonneg _
      show 0 ≤ pyRound1 (|v - ref.max_value| /
        (if ref.max_value ≠ 0 then ref.max_value else 1) * 100)
      exact pyRound1_nonneg (mul_nonneg (div_nonneg habs hspan.le) (by norm_num))
    · rw [if_neg h2]

theorem ranges_bounds :
    ∀ p ∈ NORMAL_RANGES, 0 ≤ p.2.min_value ∧ 0 < p.2.max_value := by
  with_unfolding_all decide

theorem lookup_mem (s c : String) (ref : ReferenceRange)
    (h : lookup s = some (c, ref)) : (c, ref) ∈ NORMAL_RANGES := by
  unfold lookup at h
  cases hA : dictGet _ALIAS_MAP (normKey s) with
  | none =>
    rw [hA] at h
    simp at h
  | some canonical =>
    rw [hA] at h
    have h2 : (match dictGet NORMAL_RANGES canonical with
        | none => none
        | some ref => some (canonical, ref)) = some (c, ref) := h
    cases hB : dictGet NORMAL_RANGES canonical with
    | none =>
      rw [hB] at h2
      simp at h2
    | some ref2 =>
      rw [hB] at h2
      simp only [Option.some.injEq, Prod.mk.injEq] at h2
      obtain ⟨hc, hr⟩ := h2
      subst hc
      subst hr
      exact dictGet_some_mem _ _ _ hB

theorem analyzeOne_spec (ext : ExtractedTest) (c : String) (ref : ReferenceRange)
    (hmin : 0 ≤ ref.min_value) (hmax : 0 < ref.max_value) :
    ((analyzeOne ext c ref).status = Status.normal ↔
      (analyzeOne ext c ref).severity = Severity.normal) ∧
    ((analyzeOne ext c ref).status = Status.normal →
      (analyzeOne ext c ref).deviation_pct = 0) ∧
    0 ≤ (analyzeOne ext c ref).deviation_pct := by
  have h1 : (analyzeOne ext c ref).status = (_classify ext.value ref).1 := rfl
  have h2 : (analyzeOne ext c ref).deviation_pct = (_classify ext.value ref).2 := rfl
  have h3 : (analyzeOne ext c ref).severity =
      _severity_level (_classify ext.value ref).1 (_classify ext.value ref).2 := rfl
  rw [h1, h2, h3]
  exact ⟨(severity_normal_iff _ _).symm, classify_fst_normal _ _,
    classify_snd_nonneg _ _ hmin hmax⟩

theorem analyze_foldl_spec :
    ∀ (ts : List ExtractedTest) (r : AnalysisReport),
      (ts.foldl analyzeStep r).matched = r.matched ++ ts.filterMap (fun ext =>
        (lookup ext.raw_name).map (fun cr => analyzeOne ext cr.1 cr.2)) ∧
      (ts.foldl analyzeStep r).unrecognized = r.unrecognized ++
        ts.filter (fun ext => (lookup ext.raw_name).isNone) ∧
      (ts.foldl analyzeStep r).health_score = r.health_score := by
  intro ts
  induction ts with
  | nil =>
    intro r
    simp
  | cons e ts ih =>
    intro r
    simp only [List.foldl_cons, List.filterMap_cons, List.filter_cons]
    cases hl : lookup e.raw_name with
    | none =>
      have hstep : analyzeStep r e =
          { r with unrecognized := r.unrecognized ++ [e] } := by
        unfold analyzeStep
        rw [hl]
      rw [hstep]
      obtain ⟨h1, h2, h3⟩ := ih { r with unrecognized := r.unrecognized ++ [e] }
      refine ⟨?_, ?_, ?_⟩
      · rw [h1]
        simp [hl]
      · rw [h2]
        simp [hl]
      · rw [h3]
    | some cr =>
      obtain ⟨c, ref⟩ := cr
      have hstep : analyzeStep r e =
          { r with matched := r.matched ++ [analyzeOne e c ref] } := by
        unfold analyzeStep
        rw [hl]
      rw [hstep]
      obtain ⟨h1, h2, h3⟩ := ih { r with matched := r.matched ++ [analyzeOne e c ref] }
      refine ⟨?_, ?_, ?_⟩
      · rw [h1]
        simp [hl]
      · rw [h2]
        simp [hl]
      · rw [h3]

theorem analyze_matched_eq (ts : List ExtractedTest) :
    (analyze ts).matched = ts.filterMap (fun ext =>
      (lookup ext.raw_name).map (fun cr => analyzeOne ext cr.1 cr.2)) := by
  have h := (analyze_foldl_spec ts ⟨[], [], 100⟩).1
  simpa [analyze] using h

theorem analyze_unrecognized_eq (ts : List ExtractedTest) :
    (analyze ts).unrecognized =
      ts.filter (fun ext => (lookup ext.raw_name).isNone) := by
  have h := (analyze_foldl_spec ts ⟨[], [], 100⟩).2.1
  simpa [analyze] using h

theorem analyze_score_eq (ts : List ExtractedTest) :
    (analyze ts).health_score = _compute_health_score ((analyze ts).matched) := rfl

/-! ### C1 (amended): status, rounded deviation and severity -/

/-- C1 counterexample: running `analyze` on Fasting Glucose 69.98 (reference
70-100) yields a matched test with status Low whose rounded `deviation_pct`
is exactly 0.0 (severity Mild), so `status == Normal`, `deviation_pct == 0.0`
and `severity == Normal` are not pairwise equivalent. -/
theorem c1_rounding_counterexample :
    ((analyze [⟨"fasting glucose", 3499/50, "Fasting Glucose 69.98"⟩]).matched.map
      (fun t => (t.status, t.deviation_pct, t.severity))) =
      [(Status.low, 0, Severity.mild)] := by
  with_unfolding_all decide

/-- C1 (amended): for every `AnalyzedTest` produced by `analyze`,
`status == Normal ⟺ severity == Normal`, a Normal status forces
`deviation_pct == 0.0`, and `deviation_pct` is nonnegative; the converse
`deviation_pct == 0.0 ⟹ status == Normal` does not hold because of the
one-decimal rounding (see the counterexample). -/
theorem c1_status_severity_invariant (tests : List ExtractedTest) :
    ∀ t ∈ (analyze tests).matched,
      (t.status = Status.normal ↔ t.severity = Severity.normal) ∧
      (t.status = Status.normal → t.deviation_pct = 0) ∧
      0 ≤ t.deviation_pct := by
  intro t ht
  rw [analyze_matched_eq] at ht
  obtain ⟨ext, hext, hmap⟩ := List.mem_filterMap.mp ht
  cases hl : lookup ext.raw_name with
  | none =>
    rw [hl] at hmap
    simp at hmap
  | some cr =>
    obtain ⟨c, ref⟩ := cr
    rw [hl] at hmap
    simp only [Option.map_some', Option.some.injEq] at hmap
    obtain ⟨hmin, hmax⟩ := ranges_bounds (c, ref) (lookup_mem ext.raw_name c ref hl)
    exact hmap ▸ analyzeOne_spec ext c ref hmin hmax

theorem c1_witness :
    sodiumAnalyzed ∈ (analyze [sodiumExtracted]).matched ∧
    ((sodiumAnalyzed.status = Status.normal ↔
       sodiumAnalyzed.severity = Severity.normal) ∧
     (sodiumAnalyzed.status = Status.normal → sodiumAnalyzed.deviation_pct = 0) ∧
     0 ≤ sodiumAnalyzed.deviation_pct) :=
  ⟨by with_unfolding_all decide,
   c1_status_severity_invariant [sodiumExtracted] sodiumAnalyzed
     (by with_unfolding_all decide)⟩


/-! ### C9: unrecognized tests are collected, never fatal, and do not
affect the score -/

theorem filterMap_eq_filter_filterMap {α β : Type} (f : α → Option β) :
    ∀ l : List α, l.filterMap f = (l.filter (fun a => (f a).isSome)).filterMap f := by
  intro l
  induction l with
  | nil => rfl
  | cons a l ih =>
    cases hf : f a with
    | none => simp [List.filterMap_cons, List.filter_cons, hf, ih]
    | some b => simp [List.filterMap_cons, List.filter_cons, hf, ih]

theorem analyze_matched_congr (l1 l2 : List ExtractedTest)
    (h : l1.filter (fun t => (lookup t.raw_name).isSome) =
         l2.filter (fun t => (lookup t.raw_name).isSome)) :
    (analyze l1).matched = (analyze l2).matched := by
  have hpred : ∀ l : List ExtractedTest,
      l.filter (fun a =>
        ((lookup a.raw_name).map (fun cr => analyzeOne a cr.1 cr.2)).isSome) =
      l.filter (fun a => (lookup a.raw_name).isSome) := by
    intro l
    apply List.filter_congr
    intro a _
    cases lookup a.raw_name <;> rfl
  rw [analyze_matched_eq, analyze_matched_eq,
    filterMap_eq_filter_filterMap, hpred, h, ← hpred,
    ← filterMap_eq_filter_filterMap]

/-- C9: `analyze` never fails on an unrecognized name: unrecognized inputs
are exactly the ones with no catalog match, in order; the score is computed
from the matched sequence only; and two inputs with the same recognized
sublist get the same score (so adding or removing unrecognized tests leaves
the score unchanged). -/
theorem c9_unrecognized_soft (tests : List ExtractedTest) :
    (analyze tests).unrecognized =
      tests.filter (fun t => (lookup t.raw_name).isNone) ∧
    (analyze tests).health_score =
      _compute_health_score ((analyze tests).matched) ∧
    (∀ tests2 : List ExtractedTest,
      tests.filter (fun t => (lookup t.raw_name).isSome) =
        tests2.filter (fun t => (lookup t.raw_name).isSome) →
      (analyze tests).health_score = (analyze tests2).health_score) := by
  refine ⟨analyze_unrecognized_eq tests, analyze_score_eq tests, ?_⟩
  intro tests2 h
  rw [analyze_score_eq, analyze_score_eq, analyze_matched_congr tests tests2 h]

theorem c9_witness :
    ([xyzExtracted].filter (fun t => (lookup t.raw_name).isSome) =
      ([] : List ExtractedTest).filter (fun t => (lookup t.raw_name).isSome)) ∧
    (analyze [xyzExtracted]).health_score = (analyze []).health_score :=
  ⟨by with_unfolding_all decide,
   (c9_unrecognized_soft [xyzExtracted]).2.2 [] (by with_unfolding_all decide)⟩


/-! ### C7: deduplication by lowercase cleaned name, first occurrence wins -/

theorem parse_foldl_filterMap :
    ∀ (lines : List String) (acc : List ExtractedTest),
      lines.foldl (fun seen line =>
        match lineCandidate line with
        | none => seen
        | some t => insertCandidate seen t) acc =
      (lines.filterMap lineCandidate).foldl insertCandidate acc := by
  intro lines
  induction lines with
  | nil => intro acc; rfl
  | cons l ls ih =>
    intro acc
    cases hl : lineCandidate l with
    | none =>
      simp only [List.foldl_cons, List.filterMap_cons, hl]
      exact ih acc
    | some t =>
      simp only [List.foldl_cons, List.filterMap_cons, hl]
      exact ih _

theorem parse_eq_insert_fold (text : String) :
    parse_lab_values text = (lineCandidates text).foldl insertCandidate [] := by
  unfold parse_lab_values lineCandidates
  exact parse_foldl_filterMap _ []

theorem foldl_insert_filter (k : String) :
    ∀ (cands acc : List ExtractedTest),
      (cands.foldl insertCandidate acc).filter (fun t => testKey t = k) =
        acc.filter (fun t => testKey t = k) ++
          (if acc.any (fun t => testKey t = k) then []
           else ((cands.find? (fun t => testKey t = k)).toList)) := by
  intro cands
  induction cands with
  | nil =>
    intro acc
    have hif : (if acc.any (fun t => testKey t = k) then ([] : List ExtractedTest)
        else ((List.find? (fun t => testKey t = k) []).toList)) = [] := by
      split <;> rfl
    rw [List.foldl_nil, hif, List.append_nil]
  | cons c cs ih =>
    intro acc
    simp only [List.foldl_cons]
    rw [ih (insertCandidate acc c)]
    by_cases hacc : acc.any (fun s => testKey s = testKey c)
    · have hins : insertCandidate acc c = acc := by
        unfold insertCandidate
        rw [if_pos hacc]
      rw [hins]
      by_cases hck : testKey c = k
      · have hak : acc.any (fun t => testKey t = k) = true := by
          rw [← hck]
          exact hacc
        simp [hak]
      · have hfind : List.find? (fun t => testKey t = k) (c :: cs) =
            List.find? (fun t => testKey t = k) cs :=
          List.find?_cons_of_neg _ (by simp [hck])
        rw [hfind]
    · have hins : insertCandidate acc c = acc ++ [c] := by
        unfold insertCandidate
        rw [if_neg hacc]
      rw [hins, List.filter_append, List.any_append]
      by_cases hck : testKey c = k
      · have hacck : acc.any (fun t => testKey t = k) = false := by
          rw [← hck]
          simpa using hacc
        have hfind : List.find? (fun t => testKey t = k) (c :: cs) = some c :=
          List.find?_cons_of_pos _ (by simp [hck])
        simp [hacck, hck, hfind]
      · have hfind : List.find? (fun t => testKey t = k) (c :: cs) =
            List.find? (fun t => testKey t = k) cs :=
          List.find?_cons_of_neg _ (by simp [hck])
        simp [hck, hfind]

/-- C7: for every input text and key, the parsed output contains the tests
with that lowercase cleaned name exactly once if any line produced a
candidate with that name, namely the candidate of the earliest such line
(first occurrence wins), and never more than once. -/
theorem c7_dedup_first_wins (text : String) (k : String) :
    (parse_lab_values text).filter (fun t => testKey t = k) =
      ((lineCandidates text).find? (fun t => testKey t = k)).toList := by
  rw [parse_eq_insert_fold, foldl_insert_filter k (lineCandidates text) []]
  simp


/-! ### C3: single-high-value scenario through the full pipeline -/

/-- C3: parsing then analyzing `"Fasting Glucose 118 mg/dL 70 - 100"` yields
exactly one matched test, status High with deviation 18.0 and severity
Moderate, and a health score strictly between 50 and 100 (it is 53). -/
theorem c3_single_high_scenario :
    ((analyze (parse_lab_values "Fasting Glucose 118 mg/dL 70 - 100")).matched.map
        (fun t => (t.canonical_name, t.status, t.deviation_pct, t.severity)) =
      [("fasting glucose", Status.high, 18, Severity.moderate)]) ∧
    (analyze (parse_lab_values "Fasting Glucose 118 mg/dL 70 - 100")).unrecognized
      = [] ∧
    (analyze (parse_lab_values "Fasting Glucose 118 mg/dL 70 - 100")).health_score
      = 53 ∧
    50 < (analyze (parse_lab_values "Fasting Glucose 118 mg/dL 70 - 100")).health_score ∧
    (analyze (parse_lab_values "Fasting Glucose 118 mg/dL 70 - 100")).health_score
      < 100 := by
  with_unfolding_all decide

/-! ### C8: noise suppression scenario -/

/-- C8: on the three-line input `"Page 1/2"`, `"Patient Name: John Doe"`,
`"Hemoglobin 11.2 g/dL 12.0 - 17.5"`, only Hemoglobin (value 11.2) is
extracted and it is classified Low; in general a noise line (shorter than 4
characters after trimming or matching a noise pattern) never produces a
candidate. -/
theorem c8_noise_suppression :
    (parse_lab_values "Page 1/2\nPatient Name: John Doe\nHemoglobin 11.2 g/dL 12.0 - 17.5" =
      [⟨"Hemoglobin", 11.2, "Hemoglobin 11.2 g/dL 12.0 - 17.5"⟩]) ∧
    ((analyze (parse_lab_values
        "Page 1/2\nPatient Name: John Doe\nHemoglobin 11.2 g/dL 12.0 - 17.5")).matched.map
        (fun t => (t.canonical_name, t.status)) = [("hemoglobin", Status.low)]) ∧
    (∀ line : String, _is_noise line = true → lineCandidate line = none) := by
  refine ⟨by with_unfolding_all decide, by with_unfolding_all decide, ?_⟩
  intro line h
  unfold lineCandidate
  rw [if_pos h]

theorem c8_witness :
    _is_noise "Page 1/2" = true ∧ lineCandidate "Page 1/2" = none :=
  ⟨by with_unfolding_all decide,
   c8_noise_suppression.2.2 "Page 1/2" (by with_unfolding_all decide)⟩

end LabReport
